import Mathlib

/-!
# cian-proxy: the request gateway of `services/cian-proxy/main.go`

A shallow embedding of the handler `Handle` and of the helpers it uses
(`sendError`, `sendErrorResponse`, the request and response records, the
default header table), followed by the properties of the gateway.

Conventions of the embedding

* Go `int` and `int64` values are `Int`; the handler does no arithmetic on
  them apart from the permit counter.
* A Go `map[string]string` is a `GoMap`: a list of bindings read by first
  match.  `range` visits every key once.
* `http.ResponseWriter` is a record of what was sent: the header fields, the
  status line (absent until the first `WriteHeader` or `Write`) and the JSON
  documents written to the body.
* The collaborators that live outside the repository are inputs of the model:
  the JSON decoder (`decode`), the backend client (`Do`) and the outcome of
  waiting on the semaphore (`granted`).
* Logging, the closing of the request body and the cancel function of the
  60 second context are not modelled: they do not take part in what is
  answered, in what the backend is given or in the permit count.
-/

namespace CianProxy

/-! ## Go maps -/

/-- A Go `map[string]string`, as a list of bindings read by first match. -/
structure GoMap where
  entries : List (String × String)
deriving Repr, DecidableEq

/-- The empty map, `make(map[string]string)`. -/
def GoMap.empty : GoMap := ⟨[]⟩

/-- The map read `m[k]`, with the comma-ok result as an `Option`. -/
def GoMap.get (m : GoMap) (k : String) : Option String :=
  m.entries.lookup k

/-- The assignment `m[k] = v`: the old binding of `k`, if any, is replaced. -/
def GoMap.set (m : GoMap) (k v : String) : GoMap :=
  ⟨(k, v) :: m.entries.filter (fun e => e.1 != k)⟩

/-- Bindings of a list whose keys were not seen before, first match kept. -/
def rangeAux (seen : List String) : List (String × String) → List (String × String)
  | [] => []
  | e :: t => if e.1 ∈ seen then rangeAux seen t else e :: rangeAux (e.1 :: seen) t

/-- The pairs visited by `for k, v := range m`: every key of the map once,
with the value the map holds for it. -/
def GoMap.range (m : GoMap) : List (String × String) :=
  rangeAux [] m.entries

/-- The loop `for k, v := range src { dst[k] = v }`. -/
def GoMap.copyInto (src dst : GoMap) : GoMap :=
  src.range.foldl (fun h kv => h.set kv.1 kv.2) dst

/-! ## Records of the source -/

/-- Go `time.Time`, by its two integer fields.  The handler copies the value
and never looks inside. -/
structure Time where
  wall : Nat
  ext : Int
deriving Repr, DecidableEq

/-- `RequestCookie`: a cookie of the inbound request (lines 230-239). -/
structure RequestCookie where
  Name : String
  Value : String
  Path : String
  Domain : String
  Expires : Time
  MaxAge : Int
  Secure : Bool
deriving Repr, DecidableEq

/-- The fields of `cycletls.Cookie` that the handler fills in (lines 150-158). -/
structure Cookie where
  Name : String
  Value : String
  Path : String
  Domain : String
  Expires : Time
  MaxAge : Int
  Secure : Bool
deriving Repr, DecidableEq

/-- `HandleRequest`: the decoded inbound request (lines 241-253).  `Headers` is
`none` for a nil map. -/
structure HandleRequest where
  Url : String
  Method : String
  Headers : Option GoMap
  Cookies : List RequestCookie
  Body : String
  Proxy : String
  Timeout : Int
  UserAgent : String
  Ja3 : String
  DisableRedirect : Bool
deriving Repr, DecidableEq

/-- `HandleResponse`: the payload of every answer (lines 255-260). -/
structure HandleResponse where
  Body : String
  Status : Int
  Error : String
deriving Repr, DecidableEq

/-- The fields of `cycletls.Options` that the handler fills in (lines 184-193). -/
structure Options where
  Cookies : List Cookie
  Body : String
  Proxy : String
  Timeout : Int
  Headers : GoMap
  Ja3 : String
  UserAgent : String
  DisableRedirect : Bool
deriving Repr, DecidableEq

/-- The fields of `cycletls.Response` that the handler reads (lines 205-208). -/
structure Response where
  Status : Int
  Body : String
deriving Repr, DecidableEq

/-- One invocation of `globalClient.Do(url, options, method)`. -/
structure DoCall where
  url : String
  opts : Options
  method : String
deriving Repr, DecidableEq

/-! ## Process-wide values (lines 18-43) -/

/-- `maxConcurrent` (line 20). -/
def maxConcurrent : Int := 50

/-- `defaultHeaders` (lines 26-39). -/
def defaultHeaders : GoMap :=
  ⟨[("accept", "*/*"),
    ("accept-encoding", "gzip, deflate, br, zstd"),
    ("accept-language", "ru-RU,ru;q=0.9,en-US;q=0.8,en;q=0.7"),
    ("cache-control", "no-cache"),
    ("pragma", "no-cache"),
    ("priority", "u=1, i"),
    ("sec-ch-ua", "\"Google Chrome\";v=\"143\", \"Chromium\";v=\"143\", \"Not A(Brand\";v=\"24\""),
    ("sec-ch-ua-mobile", "?0"),
    ("sec-ch-ua-platform", "\"Windows\""),
    ("sec-fetch-dest", "empty"),
    ("sec-fetch-mode", "cors"),
    ("sec-fetch-site", "same-site")]⟩

/-- `defaultUserAgent` (line 42). -/
def defaultUserAgent : String :=
  "Mozilla/5.0 (Windows NT 10.0; Win64; x64) AppleWebKit/537.36 (KHTML, like Gecko) Chrome/143.0.0.0 Safari/537.36"

/-! ## JSON encoding of the payload -/

/-- A JSON scalar of the payload. -/
inductive JSONValue where
  | str (s : String)
  | num (n : Int)
deriving Repr, DecidableEq

/-- The JSON object `json.Marshal` builds from a `HandleResponse`: the members
in field order, `error` left out when empty (its tag is `omitempty`). -/
def encodeResponse (r : HandleResponse) : List (String × JSONValue) :=
  [("body", JSONValue.str r.Body), ("status", JSONValue.num r.Status)] ++
    (if r.Error = "" then [] else [("error", JSONValue.str r.Error)])

/-! ## The response writer -/

/-- What an `http.ResponseWriter` has sent so far. -/
structure ResponseWriter where
  header : List (String × String)
  status : Option Int
  written : List HandleResponse
deriving Repr, DecidableEq

/-- A writer nothing was sent on. -/
def ResponseWriter.fresh : ResponseWriter :=
  { header := [], status := none, written := [] }

/-- `w.Header().Set(k, v)`. -/
def ResponseWriter.SetHeader (w : ResponseWriter) (k v : String) : ResponseWriter :=
  { w with header := (k, v) :: w.header.filter (fun e => e.1 != k) }

/-- `w.WriteHeader(code)`: the status line is sent once; a later call does not
change it. -/
def ResponseWriter.WriteHeader (w : ResponseWriter) (code : Int) : ResponseWriter :=
  match w.status with
  | none => { w with status := some code }
  | some _ => w

/-- `json.NewEncoder(w).Encode(v)`: a write, which sends status 200 first when
no status line was sent yet. -/
def ResponseWriter.Encode (w : ResponseWriter) (v : HandleResponse) : ResponseWriter :=
  let w1 := w.WriteHeader 200
  { w1 with written := w1.written ++ [v] }

/-- The HTTP status the client receives once the handler has returned: the
status line sent, or 200 when the handler wrote nothing. -/
def ResponseWriter.outerStatus (w : ResponseWriter) : Int :=
  w.status.getD 200

/-- The JSON documents the client receives in the body. -/
def ResponseWriter.payloads (w : ResponseWriter) : List (List (String × JSONValue)) :=
  w.written.map encodeResponse

/-! ## The semaphore -/

/-- The counter of `semaphore.Weighted`: capacity and permits in use. -/
structure Weighted where
  size : Int
  cur : Int
deriving Repr, DecidableEq

/-- `semaphore.NewWeighted(n)`. -/
def NewWeighted (n : Int) : Weighted := { size := n, cur := 0 }

/-- `sem` (line 21). -/
def sem : Weighted := NewWeighted maxConcurrent

/-- The permits that are free. -/
def Weighted.available (s : Weighted) : Int := s.size - s.cur

/-- Modelled from the spec: `sem.Acquire(ctx, 1)` of golang.org/x/sync, which
is not part of the repository.  It blocks until a permit is free or the
context expires; `granted` says which of the two happened first.  With a
permit the counter grows by one, on expiry it fails and the counter is as it
was. -/
def Weighted.Acquire (s : Weighted) (granted : Bool) : Except String Weighted :=
  if granted then .ok { s with cur := s.cur + 1 }
  else .error "context deadline exceeded"

/-- Modelled from the spec: `sem.Release(1)` of golang.org/x/sync, which gives
one permit back. -/
def Weighted.Release (s : Weighted) : Weighted :=
  { s with cur := s.cur - 1 }

/-! ## The handler -/

/-- `sendError` (lines 214-220). -/
def sendError (w : ResponseWriter) (message : String) (statusCode : Int) : ResponseWriter :=
  (w.WriteHeader statusCode).Encode { Body := "", Status := statusCode, Error := message }

/-- `sendErrorResponse` (lines 223-228). -/
def sendErrorResponse (w : ResponseWriter) (message : String) : ResponseWriter :=
  w.Encode { Body := "", Status := 0, Error := message }

/-- An operation of the handler on the semaphore. -/
inductive SemOp where
  | acquired
  | acquireFailed
  | released
deriving Repr, DecidableEq

/-- What one run of `Handle` leaves behind: the response, the semaphore, the
backend invocations and the semaphore operations, in order. -/
structure HandleResult where
  w : ResponseWriter
  sem : Weighted
  calls : List DoCall
  semOps : List SemOp
deriving Repr, DecidableEq

/-- The body of `Handle` below `defer sem.Release(1)` (lines 126-210): decode,
validate, apply the defaults, call the backend, answer. -/
def handleAdmitted (Do : String → Options → String → Except String Response)
    (decode : String → Except String HandleRequest)
    (w : ResponseWriter) (body : String) : ResponseWriter × List DoCall :=
  match decode body with
  | .error err => (sendError w ("invalid request: " ++ err) 400, [])
  | .ok req =>
    if req.Url = "" then (sendError w "url is required" 400, [])
    else
      let req := if req.Method = "" then { req with Method := "GET" } else req
      let cookies : List Cookie := req.Cookies.foldl (fun cookies cookie =>
        cookies ++ [{ Name := cookie.Name, Value := cookie.Value, Path := cookie.Path,
                      Domain := cookie.Domain, Expires := cookie.Expires,
                      MaxAge := cookie.MaxAge, Secure := cookie.Secure }]) []
      let headers := defaultHeaders.copyInto GoMap.empty
      let headers := match req.Headers with
        | none => headers
        | some hs => hs.copyInto headers
      let userAgent := if req.UserAgent = "" then defaultUserAgent else req.UserAgent
      let req := if req.Timeout = 0 then { req with Timeout := 30000 } else req
      let call : DoCall :=
        { url := req.Url,
          opts := { Cookies := cookies, Body := req.Body, Proxy := req.Proxy,
                    Timeout := req.Timeout, Headers := headers, Ja3 := req.Ja3,
                    UserAgent := userAgent, DisableRedirect := req.DisableRedirect },
          method := req.Method }
      match Do call.url call.opts call.method with
      | .error err => (sendErrorResponse w err, [call])
      | .ok resp => (w.Encode { Body := resp.Body, Status := resp.Status, Error := "" }, [call])

/-- `Handle` (lines 106-211).  `s` is the semaphore on entry, `granted` the
outcome of waiting for a permit, `body` the request body. -/
def Handle (Do : String → Options → String → Except String Response)
    (decode : String → Except String HandleRequest)
    (s : Weighted) (granted : Bool) (body : String) : HandleResult :=
  let w := ResponseWriter.fresh.SetHeader "Content-Type" "application/json"
  match s.Acquire granted with
  | .error _ =>
    { w := sendError w "server overloaded" 429, sem := s, calls := [],
      semOps := [SemOp.acquireFailed] }
  | .ok s1 =>
    let r := handleAdmitted Do decode w body
    { w := r.1, sem := s1.Release, calls := r.2,
      semOps := [SemOp.acquired, SemOp.released] }

/-- A run of completed calls of `Handle`, one after the other; each is given
by the outcome of its wait for a permit and its body. -/
def serve (Do : String → Options → String → Except String Response)
    (decode : String → Except String HandleRequest)
    (s : Weighted) : List (Bool × String) → Weighted
  | [] => s
  | q :: rest => serve Do decode (Handle Do decode s q.1 q.2).sem rest

/-- The read `req.Headers[k]` of the caller's headers; a nil map holds no key. -/
def callerHeader (req : HandleRequest) (k : String) : Option String :=
  match req.Headers with
  | none => none
  | some hs => hs.get k

/-! ## Sample collaborators -/

/-- A backend that answers every call with status 200 and body `ok`. -/
def backendOk : String → Options → String → Except String Response :=
  fun _ _ _ => .ok { Status := 200, Body := "ok" }

/-- A backend that fails every call with the message `timeout`. -/
def backendTimeout : String → Options → String → Except String Response :=
  fun _ _ _ => .error "timeout"

/-- A request with the given url and every other field at its zero value. -/
def requestFor (url : String) : HandleRequest :=
  { Url := url, Method := "", Headers := none, Cookies := [], Body := "", Proxy := "",
    Timeout := 0, UserAgent := "", Ja3 := "", DisableRedirect := false }

/-- A cookie used in the samples. -/
def sampleCookie : RequestCookie :=
  { Name := "sid", Value := "1", Path := "/", Domain := "example.com",
    Expires := { wall := 0, ext := 0 }, MaxAge := 60, Secure := true }

/-- A request that sets a header, two equal cookies and a timeout. -/
def sampleRequest : HandleRequest :=
  { requestFor "https://example.com" with
    Headers := some ⟨[("Accept", "text/html"), ("pragma", "x")]⟩,
    Cookies := [sampleCookie, sampleCookie],
    Timeout := 1500 }

/-- A decoder for four bodies: an empty url, a bare url, the sample request,
and anything else, which is malformed. -/
def sampleDecode (body : String) : Except String HandleRequest :=
  if body = "\x7b\"url\":\"\"\x7d" then .ok (requestFor "")
  else if body = "\x7b\"url\":\"https://example.com\"\x7d" then .ok (requestFor "https://example.com")
  else if body = "sample" then .ok sampleRequest
  else .error "unexpected end of JSON input"

/-! ## Concurrent calls

Calls of `Handle` running side by side, cut at the points where a call can
block or return.  The state is the semaphore counter and the phase of every
call. -/

/-- Where a call of `Handle` stands. -/
inductive Phase where
  /-- not arrived yet -/
  | idle
  /-- blocked inside `sem.Acquire` (line 119), no permit -/
  | waiting
  /-- a permit was handed to the blocked call, `sem.Acquire` has not returned -/
  | granted
  /-- `sem.Acquire` failed, the call answered 429 and returned (lines 120-122) -/
  | rejected
  /-- `sem.Acquire` succeeded, the call is before the backend call (lines 124-183) -/
  | admitted
  /-- the call is inside `globalClient.Do` (line 184) -/
  | inBackend
  /-- the call returned and its deferred `sem.Release(1)` ran -/
  | done
deriving Repr, DecidableEq

/-- The phases in which the semaphore counts a permit for the call. -/
def Phase.ownsPermit : Phase → Bool
  | .granted | .admitted | .inBackend => true
  | _ => false

/-- The phases between a successful `sem.Acquire` and the `sem.Release`. -/
def Phase.holdsPermit : Phase → Bool
  | .admitted | .inBackend => true
  | _ => false

/-- The phase of a backend invocation in flight. -/
def Phase.inDo : Phase → Bool
  | .inBackend => true
  | _ => false

/-- The gateway with its calls: the semaphore and the phase of each call. -/
structure Gateway where
  sem : Weighted
  phase : List Phase
deriving Repr, DecidableEq

/-- What can happen next; `i` is the call it happens to. -/
inductive Event where
  /-- the call reaches `sem.Acquire`: it takes a free permit, or blocks -/
  | arrive (i : Nat)
  /-- the semaphore hands a free permit to a blocked call -/
  | grant (i : Nat)
  /-- the blocked call that was handed a permit returns from `sem.Acquire` -/
  | wake (i : Nat)
  /-- the context of a blocked call expires -/
  | expire (i : Nat)
  /-- the context expired although a permit was handed over: it is put back -/
  | cancelGranted (i : Nat)
  /-- the body does not decode or the url is empty: 400 and return -/
  | reject400 (i : Nat)
  /-- the call enters `globalClient.Do` -/
  | callBackend (i : Nat)
  /-- `globalClient.Do` returns, with a response or an error; the call answers and returns -/
  | backendReturn (i : Nat)
deriving Repr, DecidableEq

/-- Modelled from the spec: the non-blocking part of `sem.Acquire(ctx, 1)` of
golang.org/x/sync, which is not part of the repository: a permit is taken
when one is free (`size - cur >= 1`), and none is taken otherwise. -/
def Weighted.tryAcquire (s : Weighted) : Option Weighted :=
  if s.size - s.cur ≥ 1 then some { s with cur := s.cur + 1 } else none

/-- Call `i` goes from phase `src` to phase `dst`, and the semaphore becomes `s`. -/
def Gateway.move (g : Gateway) (i : Nat) (src dst : Phase) (s : Weighted) : Option Gateway :=
  if g.phase[i]? = some src then some { sem := s, phase := g.phase.set i dst } else none

/-- One step of the gateway. -/
def step (g : Gateway) : Event → Option Gateway
  | .arrive i =>
    match g.sem.tryAcquire with
    | some s => g.move i .idle .admitted s
    | none => g.move i .idle .waiting g.sem
  | .grant i =>
    match g.sem.tryAcquire with
    | some s => g.move i .waiting .granted s
    | none => none
  | .wake i => g.move i .granted .admitted g.sem
  | .expire i => g.move i .waiting .rejected g.sem
  | .cancelGranted i => g.move i .granted .rejected g.sem.Release
  | .reject400 i => g.move i .admitted .done g.sem.Release
  | .callBackend i => g.move i .admitted .inBackend g.sem
  | .backendReturn i => g.move i .inBackend .done g.sem.Release

/-- The steps of a list of events, in order. -/
def run (g : Gateway) : List Event → Option Gateway
  | [] => some g
  | e :: es =>
    match step g e with
    | some g1 => run g1 es
    | none => none

/-- The gateway at start: no permit in use, `n` calls yet to arrive. -/
def start (n : Nat) : Gateway :=
  { sem := sem, phase := List.replicate n Phase.idle }

/-- The states some interleaving of some number of calls leads to. -/
def Reachable (g : Gateway) : Prop :=
  ∃ n es, run (start n) es = some g

/-- The semaphore counts exactly the calls that own a permit, and never more
than its capacity of 50. -/
def Inv (g : Gateway) : Prop :=
  g.sem.size = 50 ∧ g.sem.cur = (g.phase.countP Phase.ownsPermit : Nat) ∧ g.sem.cur ≤ 50

/-- The number of calls between a successful `sem.Acquire` and its release. -/
def Gateway.inFlight (g : Gateway) : Nat :=
  g.phase.countP Phase.holdsPermit

/-- The number of backend invocations in flight. -/
def Gateway.inBackend (g : Gateway) : Nat :=
  g.phase.countP Phase.inDo

/-- The events that give a permit back to the semaphore. -/
def Event.releases : Event → Bool
  | .cancelGranted _ | .reject400 _ | .backendReturn _ => true
  | _ => false

/-- The phases of a call that has no permit and has not been past
`sem.Acquire`: not arrived, blocked, or rejected. -/
def Phase.notAdmitted : Phase → Bool
  | .idle | .waiting | .rejected => true
  | _ => false

/-- The first `n` calls arrive, one after the other. -/
def arrivals (n : Nat) : List Event :=
  (List.range n).map Event.arrive

/-- Fifty-one calls have arrived and none has returned. -/
def saturated : Gateway :=
  { sem := { size := 50, cur := 50 },
    phase := List.replicate 50 Phase.admitted ++ [Phase.waiting] }


/-! ## Maps: reads after writes -/

theorem lookup_filter_ne (k a : String) (l : List (String × String)) (h : a ≠ k) :
    (l.filter (fun e => e.1 != k)).lookup a = l.lookup a := by
  induction l with
  | nil => rfl
  | cons e t ih =>
    obtain ⟨x, y⟩ := e
    by_cases hx : x = k
    · subst hx
      have hax : (a == x) = false := by simpa using h
      simp [List.filter, List.lookup, hax, ih]
    · have hne : (x != k) = true := by simpa using hx
      simp only [List.filter, hne, List.lookup]
      cases hax : a == x <;> simp [ih]

theorem GoMap.get_set (m : GoMap) (k v a : String) :
    (m.set k v).get a = if a = k then some v else m.get a := by
  unfold GoMap.get GoMap.set
  by_cases h : a = k
  · subst h
    simp [List.lookup]
  · have hak : (a == k) = false := by simpa using h
    simp [List.lookup, hak, h, lookup_filter_ne k a m.entries h]

theorem foldl_set_rangeAux (l : List (String × String)) :
    ∀ (seen : List String) (dst : GoMap) (a : String),
      ((rangeAux seen l).foldl (fun h kv => h.set kv.1 kv.2) dst).get a =
        if a ∈ seen then dst.get a
        else match l.lookup a with
          | some v => some v
          | none => dst.get a := by
  induction l with
  | nil => intro seen dst a; simp [rangeAux, List.lookup]
  | cons e t ih =>
    intro seen dst a
    obtain ⟨x, y⟩ := e
    by_cases hx : x ∈ seen
    · simp only [rangeAux, hx, if_true]
      rw [ih]
      by_cases ha : a ∈ seen
      · simp [ha]
      · have hax : a ≠ x := fun h => ha (h ▸ hx)
        have hax2 : (a == x) = false := by simpa using hax
        simp [ha, List.lookup, hax2]
    · simp only [rangeAux, hx, if_false, List.foldl_cons]
      rw [ih, GoMap.get_set]
      by_cases hax : a = x
      · subst hax
        simp [hx, List.lookup]
      · have hax2 : (a == x) = false := by simpa using hax
        by_cases ha : a ∈ seen
        · simp [ha, hax]
        · simp [ha, hax, List.lookup, hax2]

theorem GoMap.get_copyInto (src dst : GoMap) (a : String) :
    (src.copyInto dst).get a =
      match src.get a with
      | some v => some v
      | none => dst.get a := by
  unfold GoMap.copyInto GoMap.range
  rw [foldl_set_rangeAux]
  simp [GoMap.get]

theorem GoMap.get_copyInto_empty (src : GoMap) (a : String) :
    (src.copyInto GoMap.empty).get a = src.get a := by
  rw [GoMap.get_copyInto]
  cases src.get a <;> simp [GoMap.get, GoMap.empty]

/-! ## Loops of the handler -/

theorem foldl_append_singleton {α β : Type} (f : α → β) (l : List α) (acc : List β) :
    l.foldl (fun cs c => cs ++ [f c]) acc = acc ++ l.map f := by
  induction l generalizing acc with
  | nil => simp
  | cons x t ih => simp [ih]


/-! ## The handler, path by path -/

theorem handleAdmitted_decode_error (Do : String → Options → String → Except String Response)
    (decode : String → Except String HandleRequest) (w : ResponseWriter) (body err : String)
    (hd : decode body = .error err) :
    handleAdmitted Do decode w body = (sendError w ("invalid request: " ++ err) 400, []) := by
  unfold handleAdmitted
  simp only [hd]

theorem handleAdmitted_empty_url (Do : String → Options → String → Except String Response)
    (decode : String → Except String HandleRequest) (w : ResponseWriter) (body : String)
    (req : HandleRequest) (hd : decode body = .ok req) (hu : req.Url = "") :
    handleAdmitted Do decode w body = (sendError w "url is required" 400, []) := by
  unfold handleAdmitted
  simp only [hd, hu, if_true]

theorem handleAdmitted_call (Do : String → Options → String → Except String Response)
    (decode : String → Except String HandleRequest) (w : ResponseWriter) (body : String)
    (req : HandleRequest) (hd : decode body = .ok req) (hu : req.Url ≠ "") :
    ∃ c : DoCall,
      (handleAdmitted Do decode w body).2 = [c] ∧
      (handleAdmitted Do decode w body).1 =
        (match Do c.url c.opts c.method with
         | .error err => sendErrorResponse w err
         | .ok resp => w.Encode { Body := resp.Body, Status := resp.Status, Error := "" }) ∧
      c.url = req.Url ∧
      c.method = (if req.Method = "" then "GET" else req.Method) ∧
      c.opts.Cookies = req.Cookies.map (fun cookie =>
        { Name := cookie.Name, Value := cookie.Value, Path := cookie.Path,
          Domain := cookie.Domain, Expires := cookie.Expires,
          MaxAge := cookie.MaxAge, Secure := cookie.Secure }) ∧
      c.opts.Timeout = (if req.Timeout = 0 then 30000 else req.Timeout) ∧
      (∀ k, c.opts.Headers.get k =
        match (match req.Headers with | none => none | some hs => hs.get k) with
        | some v => some v
        | none => defaultHeaders.get k) := by
  unfold handleAdmitted
  simp only [hd, if_neg hu]
  by_cases hm : req.Method = "" <;> by_cases ht : req.Timeout = 0 <;>
    simp only [hm, ht, if_true, if_false] <;> split <;> rename_i hdo <;>
    refine ⟨_, rfl, ?_, rfl, rfl, ?_, rfl, ?_⟩ <;>
    first
    | (simp only [hdo]; done)
    | exact foldl_append_singleton _ _ _
    | (intro k
       cases hh : req.Headers with
       | none => simp only [GoMap.get_copyInto_empty]
       | some hs => rw [GoMap.get_copyInto, GoMap.get_copyInto_empty])


theorem Handle_not_granted (Do : String → Options → String → Except String Response)
    (decode : String → Except String HandleRequest) (s : Weighted) (body : String) :
    Handle Do decode s false body =
      { w := sendError (ResponseWriter.fresh.SetHeader "Content-Type" "application/json")
               "server overloaded" 429,
        sem := s, calls := [], semOps := [SemOp.acquireFailed] } := rfl

theorem Handle_granted (Do : String → Options → String → Except String Response)
    (decode : String → Except String HandleRequest) (s : Weighted) (body : String) :
    Handle Do decode s true body =
      { w := (handleAdmitted Do decode
               (ResponseWriter.fresh.SetHeader "Content-Type" "application/json") body).1,
        sem := s,
        calls := (handleAdmitted Do decode
               (ResponseWriter.fresh.SetHeader "Content-Type" "application/json") body).2,
        semOps := [SemOp.acquired, SemOp.released] } := by
  cases s with
  | mk size cur =>
    simp only [Handle, Weighted.Acquire, Weighted.Release, if_true]
    congr 2
    omega

theorem sendError_status (w : ResponseWriter) (message : String) (code : Int)
    (hw : w.status = none) : (sendError w message code).outerStatus = code := by
  simp [sendError, ResponseWriter.Encode, ResponseWriter.WriteHeader, ResponseWriter.outerStatus, hw]

theorem sendError_written (w : ResponseWriter) (message : String) (code : Int)
    (hw : w.status = none) :
    (sendError w message code).written =
      w.written ++ [{ Body := "", Status := code, Error := message }] := by
  simp [sendError, ResponseWriter.Encode, ResponseWriter.WriteHeader, hw]

theorem Encode_status (w : ResponseWriter) (v : HandleResponse) (hw : w.status = none) :
    (w.Encode v).outerStatus = 200 := by
  simp [ResponseWriter.Encode, ResponseWriter.WriteHeader, ResponseWriter.outerStatus, hw]

theorem Encode_written (w : ResponseWriter) (v : HandleResponse) (hw : w.status = none) :
    (w.Encode v).written = w.written ++ [v] := by
  simp [ResponseWriter.Encode, ResponseWriter.WriteHeader, hw]

theorem handleAdmitted_call_status (Do : String → Options → String → Except String Response)
    (decode : String → Except String HandleRequest) (w : ResponseWriter) (body : String)
    (req : HandleRequest) (hd : decode body = .ok req) (hu : req.Url ≠ "")
    (hw : w.status = none) :
    (handleAdmitted Do decode w body).1.outerStatus = 200 ∧
      (handleAdmitted Do decode w body).2.length = 1 := by
  obtain ⟨c, hc, hw1, -⟩ := handleAdmitted_call Do decode w body req hd hu
  refine ⟨?_, by simp [hc]⟩
  rw [hw1]
  split
  · exact Encode_status w _ hw
  · exact Encode_status w _ hw

theorem Handle_mem_calls (Do : String → Options → String → Except String Response)
    (decode : String → Except String HandleRequest) (s : Weighted) (granted : Bool)
    (body : String) (req : HandleRequest) (c : DoCall)
    (hd : decode body = .ok req) (hc : c ∈ (Handle Do decode s granted body).calls) :
    granted = true ∧ req.Url ≠ "" ∧
    (Handle Do decode s granted body).calls = [c] ∧
    c.url = req.Url ∧
    c.method = (if req.Method = "" then "GET" else req.Method) ∧
    c.opts.Cookies = req.Cookies.map (fun cookie =>
      { Name := cookie.Name, Value := cookie.Value, Path := cookie.Path,
        Domain := cookie.Domain, Expires := cookie.Expires,
        MaxAge := cookie.MaxAge, Secure := cookie.Secure }) ∧
    c.opts.Timeout = (if req.Timeout = 0 then 30000 else req.Timeout) ∧
    (∀ k, c.opts.Headers.get k =
      match callerHeader req k with
      | some v => some v
      | none => defaultHeaders.get k) := by
  cases granted with
  | false => rw [Handle_not_granted] at hc; cases hc
  | true =>
    rw [Handle_granted] at hc ⊢
    by_cases hu : req.Url = ""
    · rw [handleAdmitted_empty_url Do decode _ body req hd hu] at hc
      cases hc
    · obtain ⟨c1, h1, -, h3, h4, h5, h6, h7⟩ := handleAdmitted_call Do decode
        (ResponseWriter.fresh.SetHeader "Content-Type" "application/json") body req hd hu
      have hcc : c = c1 := by simpa [h1] using hc
      subst hcc
      exact ⟨rfl, hu, h1, h3, h4, h5, h6, h7⟩

/-! ## The claims -/

/-- C1, as stated, fails: the body decodes to an empty url, no permit is
obtained within the deadline, and the answer is 429 `server overloaded`, not
400 `url is required`. -/
theorem Handle_empty_url_overloaded :
    sampleDecode "\x7b\"url\":\"\"\x7d" = .ok (requestFor "") ∧
    (requestFor "").Url = "" ∧
    (Handle backendOk sampleDecode sem false "\x7b\"url\":\"\"\x7d").w.outerStatus = 429 ∧
    (Handle backendOk sampleDecode sem false "\x7b\"url\":\"\"\x7d").w.outerStatus ≠ 400 ∧
    (Handle backendOk sampleDecode sem false "\x7b\"url\":\"\"\x7d").w.written =
      [{ Body := "", Status := 429, Error := "server overloaded" }] :=
  ⟨rfl, rfl, by decide, by decide, by decide⟩

/-- C1, amended: for every inbound request whose decoded url is empty, the
backend client is invoked zero times; when the call obtained a permit, the
outer HTTP status is 400 and the payload has error `url is required` and
status 400. -/
theorem Handle_empty_url (Do : String → Options → String → Except String Response)
    (decode : String → Except String HandleRequest) (s : Weighted) (granted : Bool)
    (body : String) (req : HandleRequest)
    (hd : decode body = .ok req) (hu : req.Url = "") :
    (Handle Do decode s granted body).calls = [] ∧
    (granted = true →
      (Handle Do decode s granted body).w.outerStatus = 400 ∧
      (Handle Do decode s granted body).w.written =
        [{ Body := "", Status := 400, Error := "url is required" }]) := by
  cases granted with
  | false => exact ⟨by rw [Handle_not_granted], fun h => by cases h⟩
  | true =>
    rw [Handle_granted, handleAdmitted_empty_url Do decode _ body req hd hu]
    exact ⟨rfl, fun _ => ⟨sendError_status _ _ _ rfl, sendError_written _ _ _ rfl⟩⟩

/-- Witness of C1, amended: the body with an empty url, with a permit. -/
theorem Handle_empty_url_witness :
    sampleDecode "\x7b\"url\":\"\"\x7d" = .ok (requestFor "") ∧
    (requestFor "").Url = "" ∧
    (Handle backendOk sampleDecode sem true "\x7b\"url\":\"\"\x7d").calls = [] ∧
    (Handle backendOk sampleDecode sem true "\x7b\"url\":\"\"\x7d").w.outerStatus = 400 :=
  ⟨rfl, rfl,
   (Handle_empty_url backendOk sampleDecode sem true
      "\x7b\"url\":\"\"\x7d" (requestFor "") rfl rfl).1,
   ((Handle_empty_url backendOk sampleDecode sem true
      "\x7b\"url\":\"\"\x7d" (requestFor "") rfl rfl).2 rfl).1⟩

/-- C2: every call of `Handle` ends in one of three ways.  Either the backend
client was invoked exactly once and the outer status is 200 (whatever the
backend answered); or no permit was obtained, the outer status is 429 and the
backend was not invoked; or a permit was obtained, the body failed to decode
or its url is empty, the outer status is 400 and the backend was not invoked.
Hence the outer status is 200 exactly when the backend was invoked. -/
theorem Handle_status_and_calls (Do : String → Options → String → Except String Response)
    (decode : String → Except String HandleRequest) (s : Weighted) (granted : Bool)
    (body : String) :
    (((Handle Do decode s granted body).w.outerStatus = 200 ∧
        (Handle Do decode s granted body).calls.length = 1 ∧
        granted = true ∧ ∃ req, decode body = .ok req ∧ req.Url ≠ "") ∨
     ((Handle Do decode s granted body).w.outerStatus = 429 ∧
        (Handle Do decode s granted body).calls.length = 0 ∧
        granted = false) ∨
     ((Handle Do decode s granted body).w.outerStatus = 400 ∧
        (Handle Do decode s granted body).calls.length = 0 ∧
        granted = true ∧
        ((∃ err, decode body = .error err) ∨ ∃ req, decode body = .ok req ∧ req.Url = ""))) ∧
    ((Handle Do decode s granted body).w.outerStatus = 200 ↔
      (Handle Do decode s granted body).calls.length = 1) ∧
    ((Handle Do decode s granted body).w.outerStatus = 200 ↔
      (Handle Do decode s granted body).calls ≠ []) := by
  cases granted with
  | false =>
    rw [Handle_not_granted]
    have h1 := sendError_status (ResponseWriter.fresh.SetHeader "Content-Type" "application/json")
      "server overloaded" 429 rfl
    simp [h1]
  | true =>
    rw [Handle_granted]
    cases hd : decode body with
    | error err =>
      rw [handleAdmitted_decode_error Do decode _ body err hd]
      have h1 := sendError_status
        (ResponseWriter.fresh.SetHeader "Content-Type" "application/json")
        ("invalid request: " ++ err) 400 rfl
      simp [h1]
    | ok req =>
      by_cases hu : req.Url = ""
      · rw [handleAdmitted_empty_url Do decode _ body req hd hu]
        have h1 := sendError_status
          (ResponseWriter.fresh.SetHeader "Content-Type" "application/json")
          "url is required" 400 rfl
        simp [h1, hu]
      · obtain ⟨h1, h2⟩ := handleAdmitted_call_status Do decode
          (ResponseWriter.fresh.SetHeader "Content-Type" "application/json") body req hd hu rfl
        have h3 : (handleAdmitted Do decode
            (ResponseWriter.fresh.SetHeader "Content-Type" "application/json") body).2 ≠ [] := by
          intro h
          rw [h] at h2
          simp at h2
        simp [h1, h2, h3, hu]


/-- C3: when a call holds a permit, its body decodes to a request with a
non-empty url and the backend client fails with message `m`, the outer HTTP
status is 200 and the one payload has status 0, an empty body and error
exactly `m`. -/
theorem Handle_backend_error (Do : String → Options → String → Except String Response)
    (decode : String → Except String HandleRequest) (s : Weighted)
    (body : String) (req : HandleRequest) (m : String)
    (hd : decode body = .ok req) (hu : req.Url ≠ "")
    (hDo : ∀ c ∈ (Handle Do decode s true body).calls,
      Do c.url c.opts c.method = .error m) :
    (Handle Do decode s true body).w.outerStatus = 200 ∧
    (Handle Do decode s true body).w.written = [{ Body := "", Status := 0, Error := m }] := by
  rw [Handle_granted] at hDo ⊢
  obtain ⟨c, hc, hw, -⟩ := handleAdmitted_call Do decode
    (ResponseWriter.fresh.SetHeader "Content-Type" "application/json") body req hd hu
  have hm := hDo c (by simp [hc])
  simp only [hw, hm, sendErrorResponse]
  exact ⟨Encode_status _ _ rfl, Encode_written _ _ rfl⟩

/-- Witness of C3: the sample request against a backend that fails with
`timeout`. -/
theorem Handle_backend_error_witness :
    sampleDecode "sample" = .ok sampleRequest ∧ sampleRequest.Url ≠ "" ∧
    (Handle backendTimeout sampleDecode sem true "sample").w.outerStatus = 200 ∧
    (Handle backendTimeout sampleDecode sem true "sample").w.written =
      [{ Body := "", Status := 0, Error := "timeout" }] :=
  ⟨rfl, by decide,
   Handle_backend_error backendTimeout sampleDecode sem "sample" sampleRequest "timeout"
     rfl (by decide) (fun _ _ => rfl)⟩

/-- C4: when a call holds a permit, its body decodes to a request with a
non-empty url and the backend client returns status `st` and body `b`, the
outer HTTP status is 200 and the one payload has body exactly `b`, status
exactly `st` and an empty error, which the JSON leaves out. -/
theorem Handle_backend_success (Do : String → Options → String → Except String Response)
    (decode : String → Except String HandleRequest) (s : Weighted)
    (body : String) (req : HandleRequest) (st : Int) (b : String)
    (hd : decode body = .ok req) (hu : req.Url ≠ "")
    (hDo : ∀ c ∈ (Handle Do decode s true body).calls,
      Do c.url c.opts c.method = .ok { Status := st, Body := b }) :
    (Handle Do decode s true body).w.outerStatus = 200 ∧
    (Handle Do decode s true body).w.written = [{ Body := b, Status := st, Error := "" }] ∧
    (Handle Do decode s true body).w.payloads =
      [[("body", JSONValue.str b), ("status", JSONValue.num st)]] := by
  rw [Handle_granted] at hDo ⊢
  obtain ⟨c, hc, hw, -⟩ := handleAdmitted_call Do decode
    (ResponseWriter.fresh.SetHeader "Content-Type" "application/json") body req hd hu
  have hm := hDo c (by simp [hc])
  simp only [hw, hm]
  have h2 := Encode_written (ResponseWriter.fresh.SetHeader "Content-Type" "application/json")
    { Body := b, Status := st, Error := "" } rfl
  refine ⟨Encode_status _ _ rfl, h2, ?_⟩
  rw [ResponseWriter.payloads, h2]
  simp [ResponseWriter.fresh, ResponseWriter.SetHeader, encodeResponse]

/-- Witness of C4: the bare url against a backend that answers 200 `ok`. -/
theorem Handle_backend_success_witness :
    sampleDecode "\x7b\"url\":\"https://example.com\"\x7d" = .ok (requestFor "https://example.com") ∧
    (requestFor "https://example.com").Url ≠ "" ∧
    (Handle backendOk sampleDecode sem true
      "\x7b\"url\":\"https://example.com\"\x7d").w.outerStatus = 200 ∧
    (Handle backendOk sampleDecode sem true
      "\x7b\"url\":\"https://example.com\"\x7d").w.written =
      [{ Body := "ok", Status := 200, Error := "" }] ∧
    (Handle backendOk sampleDecode sem true
      "\x7b\"url\":\"https://example.com\"\x7d").w.payloads =
      [[("body", JSONValue.str "ok"), ("status", JSONValue.num 200)]] :=
  ⟨rfl, by decide,
   Handle_backend_success backendOk sampleDecode sem
     "\x7b\"url\":\"https://example.com\"\x7d" (requestFor "https://example.com") 200 "ok"
     rfl (by decide) (fun _ _ => rfl)⟩

theorem serve_eq (Do : String → Options → String → Except String Response)
    (decode : String → Except String HandleRequest) (reqs : List (Bool × String)) :
    ∀ s : Weighted, serve Do decode s reqs = s := by
  induction reqs with
  | nil => intro s; rfl
  | cons q rest ih =>
    intro s
    rw [serve, ih]
    cases hq : q.1 with
    | false => rw [Handle_not_granted]
    | true => rw [Handle_granted]

/-- C6: a completed call of `Handle` leaves the semaphore as it found it, on
every path: the permit is released once when it was acquired and not at all
when it was not.  Hence any run of completed calls leaves the semaphore as it
was, and from the initial semaphore 50 permits are free again. -/
theorem Handle_permit_accounting (Do : String → Options → String → Except String Response)
    (decode : String → Except String HandleRequest) (s : Weighted) (granted : Bool)
    (body : String) (reqs : List (Bool × String)) :
    (Handle Do decode s granted body).sem = s ∧
    (Handle Do decode s granted body).sem.available = s.available ∧
    (Handle Do decode s granted body).semOps.count SemOp.released =
      (Handle Do decode s granted body).semOps.count SemOp.acquired ∧
    (Handle Do decode s granted body).semOps.count SemOp.released ≤ 1 ∧
    ((Handle Do decode s granted body).semOps.count SemOp.acquired = 1 ↔ granted = true) ∧
    serve Do decode s reqs = s ∧
    sem.available = 50 ∧
    (serve Do decode sem reqs).available = 50 := by
  have hs : (Handle Do decode s granted body).sem = s := by
    cases granted with
    | false => rw [Handle_not_granted]
    | true => rw [Handle_granted]
  refine ⟨hs, by rw [hs], ?_, ?_, ?_, serve_eq Do decode reqs s, by decide, ?_⟩
  · cases granted with
    | false => rw [Handle_not_granted]; simp
    | true => rw [Handle_granted]; simp
  · cases granted with
    | false => rw [Handle_not_granted]; simp
    | true => rw [Handle_granted]; simp
  · cases granted with
    | false => rw [Handle_not_granted]; simp
    | true => rw [Handle_granted]; simp
  · rw [serve_eq]; decide


/-- C7: the headers passed to the backend client are the default table
overridden by the caller's headers.  For every key `k`, compared as given: in
both, the caller's value; only in the defaults, the default value; only in
the caller's headers, the caller's value; in neither, absent. -/
theorem Handle_headers (Do : String → Options → String → Except String Response)
    (decode : String → Except String HandleRequest) (s : Weighted) (granted : Bool)
    (body : String) (req : HandleRequest) (c : DoCall)
    (hd : decode body = .ok req) (hc : c ∈ (Handle Do decode s granted body).calls)
    (k : String) :
    (∀ v d, callerHeader req k = some v → defaultHeaders.get k = some d →
      c.opts.Headers.get k = some v) ∧
    (∀ d, callerHeader req k = none → defaultHeaders.get k = some d →
      c.opts.Headers.get k = some d) ∧
    (∀ v, callerHeader req k = some v → defaultHeaders.get k = none →
      c.opts.Headers.get k = some v) ∧
    (callerHeader req k = none → defaultHeaders.get k = none →
      c.opts.Headers.get k = none) := by
  obtain ⟨-, -, -, -, -, -, -, hh⟩ := Handle_mem_calls Do decode s granted body req c hd hc
  have hk := hh k
  refine ⟨?_, ?_, ?_, ?_⟩
  · intro v d hv _; rw [hk, hv]
  · intro d hv hdef; rw [hk, hv, hdef]
  · intro v hv _; rw [hk, hv]
  · intro hv hdef; rw [hk, hv, hdef]

/-- Witness of C7: the sample request overrides `pragma`, adds `Accept`, and
leaves `accept` at its default; `Accept` and `accept` are different keys. -/
theorem Handle_headers_witness :
    sampleDecode "sample" = .ok sampleRequest ∧
    (∀ c ∈ (Handle backendOk sampleDecode sem true "sample").calls,
      c.opts.Headers.get "pragma" = some "x" ∧
      c.opts.Headers.get "accept" = some "*/*" ∧
      c.opts.Headers.get "Accept" = some "text/html" ∧
      c.opts.Headers.get "x-none" = none) ∧
    (Handle backendOk sampleDecode sem true "sample").calls ≠ [] :=
  ⟨rfl,
   fun c hc =>
    ⟨(Handle_headers backendOk sampleDecode sem true "sample" sampleRequest c rfl hc
        "pragma").1 "x" "no-cache" rfl rfl,
     (Handle_headers backendOk sampleDecode sem true "sample" sampleRequest c rfl hc
        "accept").2.1 "*/*" rfl rfl,
     (Handle_headers backendOk sampleDecode sem true "sample" sampleRequest c rfl hc
        "Accept").2.2.1 "text/html" rfl rfl,
     (Handle_headers backendOk sampleDecode sem true "sample" sampleRequest c rfl hc
        "x-none").2.2.2 rfl rfl⟩,
   by decide⟩

/-- C8: the timeout passed to the backend client is 30000 when the request's
timeout is zero (as it is when the field is omitted), and the request's
timeout otherwise; it is never zero. -/
theorem Handle_timeout (Do : String → Options → String → Except String Response)
    (decode : String → Except String HandleRequest) (s : Weighted) (granted : Bool)
    (body : String) (req : HandleRequest) (c : DoCall)
    (hd : decode body = .ok req) (hc : c ∈ (Handle Do decode s granted body).calls) :
    (req.Timeout = 0 → c.opts.Timeout = 30000) ∧
    (req.Timeout ≠ 0 → c.opts.Timeout = req.Timeout) ∧
    c.opts.Timeout ≠ 0 := by
  obtain ⟨-, -, -, -, -, -, ht, -⟩ := Handle_mem_calls Do decode s granted body req c hd hc
  by_cases h0 : req.Timeout = 0
  · rw [if_pos h0] at ht
    exact ⟨fun _ => ht, fun h => absurd h0 h, by rw [ht]; decide⟩
  · rw [if_neg h0] at ht
    exact ⟨fun h => absurd h h0, fun _ => ht, by rw [ht]; exact h0⟩

/-- Witness of C8: a request without a timeout is sent with 30000, the sample
request with its own 1500. -/
theorem Handle_timeout_witness :
    sampleDecode "\x7b\"url\":\"https://example.com\"\x7d" = .ok (requestFor "https://example.com") ∧
    (requestFor "https://example.com").Timeout = 0 ∧
    (∀ c ∈ (Handle backendOk sampleDecode sem true
        "\x7b\"url\":\"https://example.com\"\x7d").calls, c.opts.Timeout = 30000) ∧
    (∀ c ∈ (Handle backendOk sampleDecode sem true "sample").calls, c.opts.Timeout = 1500) ∧
    (Handle backendOk sampleDecode sem true
        "\x7b\"url\":\"https://example.com\"\x7d").calls ≠ [] :=
  ⟨rfl, rfl,
   fun c hc => (Handle_timeout backendOk sampleDecode sem true
     "\x7b\"url\":\"https://example.com\"\x7d" (requestFor "https://example.com") c rfl hc).1 rfl,
   fun c hc => (Handle_timeout backendOk sampleDecode sem true
     "sample" sampleRequest c rfl hc).2.1 (by decide),
   by decide⟩

/-- C9: the cookies passed to the backend client are the request's cookies,
one for one and in order: the lengths agree, the cookie at every index has
the name, value, path, domain, expiry, max age and secure flag of the
request's cookie at that index, and no cookies give the empty sequence. -/
theorem Handle_cookies (Do : String → Options → String → Except String Response)
    (decode : String → Except String HandleRequest) (s : Weighted) (granted : Bool)
    (body : String) (req : HandleRequest) (c : DoCall)
    (hd : decode body = .ok req) (hc : c ∈ (Handle Do decode s granted body).calls) :
    c.opts.Cookies.length = req.Cookies.length ∧
    (∀ (i : Nat) (rc : RequestCookie), req.Cookies[i]? = some rc →
      ∃ ck : Cookie, c.opts.Cookies[i]? = some ck ∧
        ck.Name = rc.Name ∧ ck.Value = rc.Value ∧ ck.Path = rc.Path ∧
        ck.Domain = rc.Domain ∧ ck.Expires = rc.Expires ∧
        ck.MaxAge = rc.MaxAge ∧ ck.Secure = rc.Secure) ∧
    (req.Cookies = [] → c.opts.Cookies = []) := by
  obtain ⟨-, -, -, -, -, hck, -, -⟩ := Handle_mem_calls Do decode s granted body req c hd hc
  refine ⟨by rw [hck, List.length_map], ?_, ?_⟩
  · intro i rc hi
    refine ⟨{ Name := rc.Name, Value := rc.Value, Path := rc.Path, Domain := rc.Domain,
              Expires := rc.Expires, MaxAge := rc.MaxAge, Secure := rc.Secure },
      ?_, rfl, rfl, rfl, rfl, rfl, rfl, rfl⟩
    rw [hck, List.getElem?_map, hi]
    rfl
  · intro h
    rw [hck, h]
    rfl

/-- Witness of C9: the two equal cookies of the sample request are both
passed on. -/
theorem Handle_cookies_witness :
    sampleDecode "sample" = .ok sampleRequest ∧
    sampleRequest.Cookies.length = 2 ∧
    (∀ c ∈ (Handle backendOk sampleDecode sem true "sample").calls,
      c.opts.Cookies.length = sampleRequest.Cookies.length) ∧
    (Handle backendOk sampleDecode sem true "sample").calls ≠ [] :=
  ⟨rfl, rfl,
   fun c hc => (Handle_cookies backendOk sampleDecode sem true "sample" sampleRequest c
     rfl hc).1,
   by decide⟩

/-- C10, as stated, fails: the call with an empty url is rejected with outer
status 400, and the status of its payload is 400, not zero. -/
theorem rejection_payload_status_nonzero :
    (Handle backendOk sampleDecode sem true "\x7b\"url\":\"\"\x7d").calls = [] ∧
    (Handle backendOk sampleDecode sem true "\x7b\"url\":\"\"\x7d").w.outerStatus = 400 ∧
    (Handle backendOk sampleDecode sem true "\x7b\"url\":\"\"\x7d").w.written.map
      (fun p => p.Status) = [400] ∧
    (Handle backendOk sampleDecode sem true "\x7b\"url\":\"\"\x7d").w.written.map
      (fun p => p.Status) ≠ [0] :=
  ⟨by decide, by decide, by decide, by decide⟩

/-- C10, amended: for every gateway-level rejection (outer status other than
200: overload, malformed JSON, empty url) one payload is written; its body is
the empty string, its status is the outer HTTP status (429 or 400, so not
zero), and its error is the rejection message. -/
theorem Handle_rejection_payload (Do : String → Options → String → Except String Response)
    (decode : String → Except String HandleRequest) (s : Weighted) (granted : Bool)
    (body : String)
    (hrej : (Handle Do decode s granted body).w.outerStatus ≠ 200) :
    ∃ p, (Handle Do decode s granted body).w.written = [p] ∧
      p.Body = "" ∧
      p.Status = (Handle Do decode s granted body).w.outerStatus ∧
      (p.Status = 429 ∨ p.Status = 400) ∧
      p.Status ≠ 0 ∧
      ((granted = false ∧ p.Status = 429 ∧ p.Error = "server overloaded") ∨
       (p.Status = 400 ∧ ∃ err, decode body = .error err ∧ p.Error = "invalid request: " ++ err) ∨
       (p.Status = 400 ∧ p.Error = "url is required" ∧
          ∃ req, decode body = .ok req ∧ req.Url = "")) := by
  cases granted with
  | false =>
    rw [Handle_not_granted]
    refine ⟨{ Body := "", Status := 429, Error := "server overloaded" },
      sendError_written _ _ _ rfl, rfl, (sendError_status _ _ _ rfl).symm, Or.inl rfl,
      by decide, Or.inl ⟨rfl, rfl, rfl⟩⟩
  | true =>
    rw [Handle_granted] at hrej ⊢
    cases hd : decode body with
    | error err =>
      rw [handleAdmitted_decode_error Do decode _ body err hd]
      refine ⟨{ Body := "", Status := 400, Error := "invalid request: " ++ err },
        sendError_written _ _ _ rfl, rfl, (sendError_status _ _ _ rfl).symm, Or.inr rfl,
        (by decide : (400 : Int) ≠ 0), Or.inr (Or.inl ⟨rfl, err, rfl, rfl⟩)⟩
    | ok req =>
      by_cases hu : req.Url = ""
      · rw [handleAdmitted_empty_url Do decode _ body req hd hu]
        refine ⟨{ Body := "", Status := 400, Error := "url is required" },
          sendError_written _ _ _ rfl, rfl, (sendError_status _ _ _ rfl).symm, Or.inr rfl,
          by decide, Or.inr (Or.inr ⟨rfl, rfl, req, rfl, hu⟩)⟩
      · exact absurd (handleAdmitted_call_status Do decode _ body req hd hu rfl).1 hrej

/-- Witness of C10, amended: a malformed body, with a permit. -/
theorem Handle_rejection_payload_witness :
    (Handle backendOk sampleDecode sem true "oops").w.outerStatus ≠ 200 ∧
    ∃ p, (Handle backendOk sampleDecode sem true "oops").w.written = [p] ∧
      p.Body = "" ∧
      p.Status = (Handle backendOk sampleDecode sem true "oops").w.outerStatus :=
  ⟨by decide,
   (Handle_rejection_payload backendOk sampleDecode sem true "oops" (by decide)).imp
     (fun _ h => ⟨h.1, h.2.1, h.2.2.1⟩)⟩


/-! ## The concurrency ceiling -/

theorem countP_set_of_getElem? {α : Type} (p : α → Bool) (a b : α) :
    ∀ (l : List α) (i : Nat), l[i]? = some a →
      (l.set i b).countP p + (if p a then 1 else 0) =
        l.countP p + (if p b then 1 else 0) := by
  intro l
  induction l with
  | nil => intro i h; simp at h
  | cons x t ih =>
    intro i h
    cases i with
    | zero =>
      simp only [List.getElem?_cons_zero, Option.some.injEq] at h
      subst h
      simp only [List.set_cons_zero, List.countP_cons]
      omega
    | succ j =>
      simp only [List.getElem?_cons_succ] at h
      have := ih j h
      simp only [List.set_cons_succ, List.countP_cons]
      omega

theorem move_spec (g g1 : Gateway) (j : Nat) (src dst : Phase) (s : Weighted)
    (h : g.move j src dst s = some g1) :
    g.phase[j]? = some src ∧ g1.sem = s ∧ g1.phase = g.phase.set j dst := by
  unfold Gateway.move at h
  split at h
  · rename_i hj
    simp only [Option.some.injEq] at h
    subst h
    exact ⟨hj, rfl, rfl⟩
  · cases h

theorem move_countP (g g1 : Gateway) (j : Nat) (src dst : Phase) (s : Weighted)
    (p : Phase → Bool) (h : g.move j src dst s = some g1) :
    g1.phase.countP p + (if p src then 1 else 0) =
      g.phase.countP p + (if p dst then 1 else 0) := by
  obtain ⟨hj, -, hp⟩ := move_spec g g1 j src dst s h
  rw [hp]
  exact countP_set_of_getElem? p src dst g.phase j hj

theorem move_phase (g g1 : Gateway) (j : Nat) (src dst : Phase) (s : Weighted)
    (h : g.move j src dst s = some g1) (i : Nat) :
    g1.phase[i]? = if j = i then some dst else g.phase[i]? := by
  obtain ⟨hj, -, hp⟩ := move_spec g g1 j src dst s h
  rw [hp, List.getElem?_set]
  by_cases hji : j = i
  · subst hji
    have hlt : j < g.phase.length := by
      by_contra hge
      rw [List.getElem?_eq_none (Nat.le_of_not_lt hge)] at hj
      cases hj
    simp [hlt]
  · simp [hji]

theorem inv_move (g g1 : Gateway) (j : Nat) (src dst : Phase) (s : Weighted)
    (hinv : Inv g) (h : g.move j src dst s = some g1) (hsize : s.size = 50)
    (hcur : s.cur + (if src.ownsPermit then 1 else 0) =
      g.sem.cur + (if dst.ownsPermit then 1 else 0))
    (hle : s.cur ≤ 50) : Inv g1 := by
  obtain ⟨-, hs, -⟩ := move_spec g g1 j src dst s h
  have hc := move_countP g g1 j src dst s Phase.ownsPermit h
  obtain ⟨-, hcnt, -⟩ := hinv
  refine ⟨by rw [hs]; exact hsize, ?_, by rw [hs]; exact hle⟩
  rw [hs]
  cases h1 : src.ownsPermit <;> cases h2 : dst.ownsPermit <;>
    simp [h1, h2] at hc hcur <;> omega

theorem tryAcquire_some (s s1 : Weighted) (h : s.tryAcquire = some s1) :
    s.size - s.cur ≥ 1 ∧ s1.size = s.size ∧ s1.cur = s.cur + 1 := by
  unfold Weighted.tryAcquire at h
  split at h
  · rename_i hge
    simp only [Option.some.injEq] at h
    subst h
    exact ⟨hge, rfl, rfl⟩
  · cases h

theorem tryAcquire_none (s : Weighted) (h : s.tryAcquire = none) : s.size - s.cur < 1 := by
  unfold Weighted.tryAcquire at h
  split at h
  · cases h
  · rename_i hlt
    omega

theorem inv_step (g g1 : Gateway) (e : Event) (hinv : Inv g) (h : step g e = some g1) :
    Inv g1 := by
  have hinv0 := hinv
  obtain ⟨hsz, hcnt, hle⟩ := hinv
  cases e with
  | arrive i =>
    simp only [step] at h
    split at h
    · rename_i s hs
      obtain ⟨h1, h2, h3⟩ := tryAcquire_some _ _ hs
      exact inv_move g g1 i _ _ s hinv0 h (by omega) (by simp [Phase.ownsPermit, h3]) (by omega)
    · exact inv_move g g1 i _ _ _ hinv0 h hsz (by simp [Phase.ownsPermit]) hle
  | grant i =>
    simp only [step] at h
    split at h
    · rename_i s hs
      obtain ⟨h1, h2, h3⟩ := tryAcquire_some _ _ hs
      exact inv_move g g1 i _ _ s hinv0 h (by omega) (by simp [Phase.ownsPermit, h3]) (by omega)
    · cases h
  | wake i =>
    exact inv_move g g1 i _ _ _ hinv0 h hsz (by simp [Phase.ownsPermit]) hle
  | expire i =>
    exact inv_move g g1 i _ _ _ hinv0 h hsz (by simp [Phase.ownsPermit]) hle
  | cancelGranted i =>
    exact inv_move g g1 i _ _ _ hinv0 h hsz (by simp [Phase.ownsPermit, Weighted.Release])
      (by simp only [Weighted.Release]; omega)
  | reject400 i =>
    exact inv_move g g1 i _ _ _ hinv0 h hsz (by simp [Phase.ownsPermit, Weighted.Release])
      (by simp only [Weighted.Release]; omega)
  | callBackend i =>
    exact inv_move g g1 i _ _ _ hinv0 h hsz (by simp [Phase.ownsPermit]) hle
  | backendReturn i =>
    exact inv_move g g1 i _ _ _ hinv0 h hsz (by simp [Phase.ownsPermit, Weighted.Release])
      (by simp only [Weighted.Release]; omega)

theorem inv_run (es : List Event) : ∀ (g g1 : Gateway), Inv g → run g es = some g1 → Inv g1 := by
  induction es with
  | nil =>
    intro g g1 hinv h
    simp only [run, Option.some.injEq] at h
    exact h ▸ hinv
  | cons e rest ih =>
    intro g g1 hinv h
    simp only [run] at h
    split at h
    · rename_i g2 hstep
      exact ih g2 g1 (inv_step g g2 e hinv hstep) h
    · cases h

theorem inv_start (n : Nat) : Inv (start n) := by
  refine ⟨rfl, ?_, by simp [start, sem, NewWeighted]⟩
  have h0 : (List.replicate n Phase.idle).countP Phase.ownsPermit = 0 := by
    rw [List.countP_eq_zero]
    intro a ha
    rw [List.eq_of_mem_replicate ha]
    decide
  simp only [start, h0]
  rfl

theorem inv_of_reachable (g : Gateway) (h : Reachable g) : Inv g := by
  obtain ⟨n, es, hrun⟩ := h
  exact inv_run es (start n) g (inv_start n) hrun

theorem inFlight_le_of_inv (g : Gateway) (h : Inv g) :
    g.inBackend ≤ g.inFlight ∧ g.inFlight ≤ 50 ∧ (g.inFlight = 50 → g.sem.cur = 50) := by
  obtain ⟨-, hcnt, hle⟩ := h
  have h1 : g.phase.countP Phase.inDo ≤ g.phase.countP Phase.holdsPermit :=
    List.countP_mono_left (fun x _ hx => by cases x <;> simp_all [Phase.inDo, Phase.holdsPermit])
  have h2 : g.phase.countP Phase.holdsPermit ≤ g.phase.countP Phase.ownsPermit :=
    List.countP_mono_left (fun x _ hx => by
      cases x <;> simp_all [Phase.ownsPermit, Phase.holdsPermit])
  unfold Gateway.inBackend Gateway.inFlight
  refine ⟨h1, by omega, fun h => by omega⟩

theorem move_cases (g g1 : Gateway) (j : Nat) (src dst : Phase) (s : Weighted)
    (h : g.move j src dst s = some g1) (i : Nat) (ph : Phase) (hi : g.phase[i]? = some ph) :
    (j = i ∧ ph = src ∧ g1.phase[i]? = some dst) ∨ (j ≠ i ∧ g1.phase[i]? = some ph) := by
  have hp := move_phase g g1 j src dst s h i
  obtain ⟨hj, -, -⟩ := move_spec g g1 j src dst s h
  by_cases hji : j = i
  · subst hji
    rw [hi] at hj
    simp only [Option.some.injEq] at hj
    rw [if_pos rfl] at hp
    exact Or.inl ⟨rfl, hj, hp⟩
  · rw [if_neg hji, hi] at hp
    exact Or.inr ⟨hji, hp⟩

theorem step_arrive_full (g g1 : Gateway) (i : Nat) (hinv : Inv g) (hfull : g.inFlight = 50)
    (h : step g (Event.arrive i) = some g1) :
    g1.phase[i]? = some Phase.waiting ∧ g1.sem = g.sem := by
  have hcur := (inFlight_le_of_inv g hinv).2.2 hfull
  obtain ⟨hsz, -, -⟩ := hinv
  simp only [step] at h
  split at h
  · rename_i s hs
    obtain ⟨h1, -, -⟩ := tryAcquire_some _ _ hs
    omega
  · have hp := move_phase g g1 i _ _ _ h i
    rw [if_pos rfl] at hp
    exact ⟨hp, (move_spec g g1 i _ _ _ h).2.1⟩

theorem step_notAdmitted (g g1 : Gateway) (e : Event) (hinv : Inv g) (hfull : g.inFlight = 50)
    (h : step g e = some g1) (i : Nat) (ph : Phase) (hi : g.phase[i]? = some ph)
    (hph : ph.notAdmitted = true) :
    ∃ ph1, g1.phase[i]? = some ph1 ∧ ph1.notAdmitted = true := by
  have hcur := (inFlight_le_of_inv g hinv).2.2 hfull
  obtain ⟨hsz, -, -⟩ := hinv
  cases e with
  | arrive j =>
    simp only [step] at h
    split at h
    · rename_i s hs
      obtain ⟨h1, -, -⟩ := tryAcquire_some _ _ hs
      omega
    · rcases move_cases g g1 j _ _ _ h i ph hi with ⟨-, -, h3⟩ | ⟨-, h3⟩
      · exact ⟨_, h3, rfl⟩
      · exact ⟨_, h3, hph⟩
  | grant j =>
    simp only [step] at h
    split at h
    · rename_i s hs
      obtain ⟨h1, -, -⟩ := tryAcquire_some _ _ hs
      omega
    · cases h
  | wake j =>
    rcases move_cases g g1 j _ _ _ h i ph hi with ⟨-, h2, -⟩ | ⟨-, h3⟩
    · subst h2; cases hph
    · exact ⟨_, h3, hph⟩
  | expire j =>
    rcases move_cases g g1 j _ _ _ h i ph hi with ⟨-, -, h3⟩ | ⟨-, h3⟩
    · exact ⟨_, h3, rfl⟩
    · exact ⟨_, h3, hph⟩
  | cancelGranted j =>
    rcases move_cases g g1 j _ _ _ h i ph hi with ⟨-, -, h3⟩ | ⟨-, h3⟩
    · exact ⟨_, h3, rfl⟩
    · exact ⟨_, h3, hph⟩
  | reject400 j =>
    rcases move_cases g g1 j _ _ _ h i ph hi with ⟨-, h2, -⟩ | ⟨-, h3⟩
    · subst h2; cases hph
    · exact ⟨_, h3, hph⟩
  | callBackend j =>
    rcases move_cases g g1 j _ _ _ h i ph hi with ⟨-, h2, -⟩ | ⟨-, h3⟩
    · subst h2; cases hph
    · exact ⟨_, h3, hph⟩
  | backendReturn j =>
    rcases move_cases g g1 j _ _ _ h i ph hi with ⟨-, h2, -⟩ | ⟨-, h3⟩
    · subst h2; cases hph
    · exact ⟨_, h3, hph⟩

theorem step_waiting (g g1 : Gateway) (e : Event) (h : step g e = some g1) (i : Nat)
    (hi : g.phase[i]? = some Phase.waiting) :
    g1.phase[i]? = some Phase.waiting ∨ g1.phase[i]? = some Phase.rejected ∨
      (g1.phase[i]? = some Phase.granted ∧ g.sem.available ≥ 1) := by
  cases e with
  | arrive j =>
    simp only [step] at h
    split at h <;>
      rcases move_cases g g1 j _ _ _ h i _ hi with ⟨-, h2, -⟩ | ⟨-, h3⟩ <;>
      first | cases h2 | exact Or.inl h3
  | grant j =>
    simp only [step] at h
    split at h
    · rename_i s hs
      obtain ⟨h1, -, -⟩ := tryAcquire_some _ _ hs
      rcases move_cases g g1 j _ _ _ h i _ hi with ⟨-, -, h3⟩ | ⟨-, h3⟩
      · exact Or.inr (Or.inr ⟨h3, h1⟩)
      · exact Or.inl h3
    · cases h
  | expire j =>
    rcases move_cases g g1 j _ _ _ h i _ hi with ⟨-, -, h3⟩ | ⟨-, h3⟩
    · exact Or.inr (Or.inl h3)
    · exact Or.inl h3
  | wake j =>
    rcases move_cases g g1 j _ _ _ h i _ hi with ⟨-, h2, -⟩ | ⟨-, h3⟩
    · cases h2
    · exact Or.inl h3
  | cancelGranted j =>
    rcases move_cases g g1 j _ _ _ h i _ hi with ⟨-, h2, -⟩ | ⟨-, h3⟩
    · cases h2
    · exact Or.inl h3
  | reject400 j =>
    rcases move_cases g g1 j _ _ _ h i _ hi with ⟨-, h2, -⟩ | ⟨-, h3⟩
    · cases h2
    · exact Or.inl h3
  | callBackend j =>
    rcases move_cases g g1 j _ _ _ h i _ hi with ⟨-, h2, -⟩ | ⟨-, h3⟩
    · cases h2
    · exact Or.inl h3
  | backendReturn j =>
    rcases move_cases g g1 j _ _ _ h i _ hi with ⟨-, h2, -⟩ | ⟨-, h3⟩
    · cases h2
    · exact Or.inl h3

theorem step_rejected (g g1 : Gateway) (e : Event) (h : step g e = some g1) (i : Nat)
    (hi : g.phase[i]? = some Phase.rejected) : g1.phase[i]? = some Phase.rejected := by
  cases e with
  | arrive j =>
    simp only [step] at h
    split at h <;>
      rcases move_cases g g1 j _ _ _ h i _ hi with ⟨-, h2, -⟩ | ⟨-, h3⟩ <;>
      first | cases h2 | exact h3
  | grant j =>
    simp only [step] at h
    split at h
    · rcases move_cases g g1 j _ _ _ h i _ hi with ⟨-, h2, -⟩ | ⟨-, h3⟩
      · cases h2
      · exact h3
    · cases h
  | expire j =>
    rcases move_cases g g1 j _ _ _ h i _ hi with ⟨-, h2, -⟩ | ⟨-, h3⟩
    · cases h2
    · exact h3
  | wake j =>
    rcases move_cases g g1 j _ _ _ h i _ hi with ⟨-, h2, -⟩ | ⟨-, h3⟩
    · cases h2
    · exact h3
  | cancelGranted j =>
    rcases move_cases g g1 j _ _ _ h i _ hi with ⟨-, h2, -⟩ | ⟨-, h3⟩
    · cases h2
    · exact h3
  | reject400 j =>
    rcases move_cases g g1 j _ _ _ h i _ hi with ⟨-, h2, -⟩ | ⟨-, h3⟩
    · cases h2
    · exact h3
  | callBackend j =>
    rcases move_cases g g1 j _ _ _ h i _ hi with ⟨-, h2, -⟩ | ⟨-, h3⟩
    · cases h2
    · exact h3
  | backendReturn j =>
    rcases move_cases g g1 j _ _ _ h i _ hi with ⟨-, h2, -⟩ | ⟨-, h3⟩
    · cases h2
    · exact h3

theorem inFlight_mono (g g1 : Gateway) (e : Event) (h : step g e = some g1)
    (he : e.releases = false) : g.inFlight ≤ g1.inFlight := by
  unfold Gateway.inFlight
  cases e with
  | arrive j =>
    simp only [step] at h
    split at h
    · have := move_countP g g1 j _ _ _ Phase.holdsPermit h
      simp [Phase.holdsPermit] at this
      omega
    · have := move_countP g g1 j _ _ _ Phase.holdsPermit h
      simp [Phase.holdsPermit] at this
      omega
  | grant j =>
    simp only [step] at h
    split at h
    · have := move_countP g g1 j _ _ _ Phase.holdsPermit h
      simp [Phase.holdsPermit] at this
      omega
    · cases h
  | wake j =>
    have := move_countP g g1 j _ _ _ Phase.holdsPermit h
    simp [Phase.holdsPermit] at this
    omega
  | expire j =>
    have := move_countP g g1 j _ _ _ Phase.holdsPermit h
    simp [Phase.holdsPermit] at this
    omega
  | callBackend j =>
    have := move_countP g g1 j _ _ _ Phase.holdsPermit h
    simp [Phase.holdsPermit] at this
    omega
  | cancelGranted j => cases he
  | reject400 j => cases he
  | backendReturn j => cases he

theorem run_notAdmitted (es : List Event) :
    ∀ (g g1 : Gateway), Inv g → g.inFlight = 50 → run g es = some g1 →
      (∀ e ∈ es, e.releases = false) →
      ∀ (i : Nat) (ph : Phase), g.phase[i]? = some ph → ph.notAdmitted = true →
        ∃ ph1, g1.phase[i]? = some ph1 ∧ ph1.notAdmitted = true := by
  induction es with
  | nil =>
    intro g g1 _ _ h _ i ph hi hph
    simp only [run, Option.some.injEq] at h
    subst h
    exact ⟨ph, hi, hph⟩
  | cons e rest ih =>
    intro g g1 hinv hfull h hrel i ph hi hph
    simp only [run] at h
    split at h
    · rename_i g2 hstep
      have hinv2 := inv_step g g2 e hinv hstep
      have hmono := inFlight_mono g g2 e hstep (hrel e (List.mem_cons_self e rest))
      have hle := (inFlight_le_of_inv g2 hinv2).2.1
      obtain ⟨ph2, hi2, hph2⟩ := step_notAdmitted g g2 e hinv hfull hstep i ph hi hph
      exact ih g2 g1 hinv2 (by omega) h
        (fun e1 he1 => hrel e1 (List.mem_cons_of_mem e he1)) i ph2 hi2 hph2
    · cases h

theorem run_rejected (es : List Event) :
    ∀ (g g1 : Gateway) (i : Nat), run g es = some g1 →
      g.phase[i]? = some Phase.rejected → g1.phase[i]? = some Phase.rejected := by
  induction es with
  | nil =>
    intro g g1 i h hi
    simp only [run, Option.some.injEq] at h
    exact h ▸ hi
  | cons e rest ih =>
    intro g g1 i h hi
    simp only [run] at h
    split at h
    · rename_i g2 hstep
      exact ih g2 g1 i h (step_rejected g g2 e hstep i hi)
    · cases h

/-- C5: in every state that some interleaving of calls reaches, at most 50
calls are between a successful permit acquisition and its release, and the
backend invocations in flight are among them, so at most 50 as well.  When
50 permits are held, a call that arrives blocks; as long as none of those
permits is given back, a call that is not admitted (not arrived, blocked or
rejected) stays not admitted, so it does not reach the backend client.  A
blocked call stays blocked, is rejected, or is handed a permit that was
free; a rejected call stays rejected for good. -/
theorem concurrency_ceiling (g : Gateway) (hg : Reachable g) :
    g.inFlight ≤ 50 ∧ g.inBackend ≤ g.inFlight ∧ g.inBackend ≤ 50 ∧
    (∀ (i : Nat) (g1 : Gateway), g.inFlight = 50 → step g (Event.arrive i) = some g1 →
      g1.phase[i]? = some Phase.waiting) ∧
    (∀ (es : List Event) (g1 : Gateway) (i : Nat) (ph : Phase), g.inFlight = 50 →
      run g es = some g1 → (∀ e ∈ es, e.releases = false) →
      g.phase[i]? = some ph → ph.notAdmitted = true →
      ∃ ph1, g1.phase[i]? = some ph1 ∧ ph1.notAdmitted = true) ∧
    (∀ (e : Event) (g1 : Gateway) (i : Nat), step g e = some g1 →
      g.phase[i]? = some Phase.waiting →
      g1.phase[i]? = some Phase.waiting ∨ g1.phase[i]? = some Phase.rejected ∨
        (g1.phase[i]? = some Phase.granted ∧ g.sem.available ≥ 1)) ∧
    (∀ (es : List Event) (g1 : Gateway) (i : Nat), run g es = some g1 →
      g.phase[i]? = some Phase.rejected → g1.phase[i]? = some Phase.rejected) := by
  have hinv := inv_of_reachable g hg
  obtain ⟨h1, h2, -⟩ := inFlight_le_of_inv g hinv
  refine ⟨h2, h1, le_trans h1 h2, ?_, ?_, ?_, ?_⟩
  · intro i g1 hfull hstep
    exact (step_arrive_full g g1 i hinv hfull hstep).1
  · intro es g1 i ph hfull hrun hrel hi hph
    exact run_notAdmitted es g g1 hinv hfull hrun hrel i ph hi hph
  · intro e g1 i hstep hi
    exact step_waiting g g1 e hstep i hi
  · intro es g1 i hrun hi
    exact run_rejected es g g1 i hrun hi

/-- Witness of C5: fifty-one calls arrive; fifty hold a permit and the last
one is blocked. -/
theorem concurrency_ceiling_witness :
    Reachable saturated ∧ saturated.inFlight = 50 ∧
    saturated.phase[50]? = some Phase.waiting ∧
    saturated.inFlight ≤ 50 ∧ saturated.inBackend ≤ 50 :=
  ⟨⟨51, arrivals 51, by decide⟩, by decide, by decide,
   (concurrency_ceiling saturated ⟨51, arrivals 51, by decide⟩).1,
   (concurrency_ceiling saturated ⟨51, arrivals 51, by decide⟩).2.2.1⟩

end CianProxy
